import Mathlib

/-!
Verification development for the flate block-writer core
(`src/compress/_flate/token.ts`, `src/compress/_flate/deflatefast.ts`,
`huffman_code.ts`, `huffman_bit_writer.ts`).

The TypeScript sources are embedded shallowly:

* JavaScript numbers are modelled as `Int`.  Every number manipulated by the
  embedded executions is an integer and, except where explicitly noted at the
  definition concerned, lies well inside the `2^53` range in which IEEE-754
  doubles are exact, so integer arithmetic is a faithful model.
* JavaScript's 32-bit bitwise operators (`|`, `&`, `^`, `<<`, `>>`) coerce
  their operands with ToInt32/ToUint32 and reduce shift counts mod 32; the
  `js*` helpers below implement exactly those semantics.
* Plain JavaScript arrays can contain holes and `undefined`; they are
  modelled as `Array (Option α)`.  Reading a hole / out-of-bounds slot yields
  `undefined`; accessing a property of `undefined` throws a `TypeError`,
  modelled by `Except.error JsErr.typeError`.  Assigning past the end of a
  plain array extends it (padding with holes).
* `Uint8Array`s are modelled as `Array Nat` of fixed size; stores coerce the
  value with ToUint8 and ignore out-of-range indices, matching typed-array
  semantics.  Reads are in bounds in every execution analysed here; the model
  faults (`typeError`) on an out-of-bounds read so that no unverified
  behaviour is silently invented.
* `throw new Error(...)` is modelled by `Except.error (JsErr.jsError m)` with
  `m` an enumerated message constant (the exact message strings appear in
  comments next to the constants).
* While-loops whose termination is not structural take a fuel parameter and
  return `JsErr.outOfFuel` when exhausted; every concrete execution proved
  about below terminates well within the supplied fuel.
-/

namespace Flate

/-- ECMAScript ToUint32: reduce an (integral) number mod 2^32 into 0..2^32-1. -/
def toUint32 (x : Int) : Int := x % 4294967296

/-- ECMAScript ToInt32: reduce mod 2^32 into -2^31..2^31-1. -/
def toInt32 (x : Int) : Int :=
  let u := x % 4294967296
  if u < 2147483648 then u else u - 4294967296

/-- ECMAScript ToUint8 (used by Uint8Array element stores). -/
def toUint8 (x : Int) : Nat := (x % 256).toNat

/-- JavaScript `a << b`: ToInt32 operands, shift count mod 32, Int32 result. -/
def jsShiftL (a b : Int) : Int := toInt32 (a * 2 ^ ((toUint32 b).toNat % 32))

/-- JavaScript signed `a >> b`: arithmetic shift of the Int32 value of `a`
by `b mod 32` bits (floor division by the power of two). -/
def jsShiftR (a b : Int) : Int :=
  Int.fdiv (toInt32 a) (2 ^ ((toUint32 b).toNat % 32))

/-- JavaScript `a | b` on Int32 values (two's-complement bitwise or). -/
def jsOr (a b : Int) : Int := toInt32 (Int.lor (toInt32 a) (toInt32 b))

/-- JavaScript `a & b` on Int32 values. -/
def jsAnd (a b : Int) : Int := toInt32 (Int.land (toInt32 a) (toInt32 b))

/-- JavaScript `a ^ b` on Int32 values. -/
def jsXor (a b : Int) : Int := toInt32 (Int.xor (toInt32 a) (toInt32 b))

/-- Enumerated stand-ins for the `Error` message strings thrown by the code. -/
inductive ErrMsg where
  /-- "flate: maxBits too large" -/
  | maxBitsTooLarge
  /-- "leafCounts[maxBits][maxBits] != n" -/
  | leafCountMismatch
  /-- "flate: internal error: writeBytes with unfinished bits" -/
  | writeBytesUnfinishedBits
  deriving DecidableEq, Repr

/-- JavaScript-level failure of an embedded execution. -/
inductive JsErr where
  /-- a property access on `undefined` (TypeError), or a read the model
  refuses to guess a value for -/
  | typeError
  /-- an explicitly thrown `Error` -/
  | jsError (msg : ErrMsg)
  /-- embedding artefact: a fuel-bounded loop ran out of fuel -/
  | outOfFuel
  deriving DecidableEq, Repr

/-- Read `a[i]` from a plain JavaScript array and access a property of the
result: holes and out-of-bounds reads give `undefined`, whose property
access throws a TypeError. -/
def jsObjGet (a : Array (Option α)) (i : Int) : Except JsErr α :=
  if h : 0 ≤ i ∧ i.toNat < a.size then
    match a.get ⟨i.toNat, h.2⟩ with
    | some v => .ok v
    | none => .error .typeError
  else .error .typeError

/-- Assign `a[i] = v` on a plain JavaScript array: in-range assignment
replaces, past-the-end assignment extends the array with holes.
(Negative indices create string-keyed properties in JavaScript, invisible to
later integer indexing; no embedded execution uses one.) -/
def jsObjSet (a : Array (Option α)) (i : Int) (v : α) : Array (Option α) :=
  if i < 0 then a
  else if h : i.toNat < a.size then a.set ⟨i.toNat, h⟩ (some v)
  else (a ++ Array.mkArray (i.toNat - a.size) none).push (some v)

/-- Read `a[i]` from a dense `number[]` (no holes by construction).
Out-of-bounds reads give `undefined`; arithmetic on `undefined` is not
modelled (no analysed execution performs any), so the model faults. -/
def jsNumGet (a : Array Int) (i : Int) : Except JsErr Int :=
  if h : 0 ≤ i ∧ i.toNat < a.size then .ok (a.get ⟨i.toNat, h.2⟩)
  else .error .typeError

/-- Assign `a[i] = v` on a dense `number[]`. -/
def jsNumSet (a : Array Int) (i : Int) (v : Int) : Array Int :=
  if i < 0 then a
  else if h : i.toNat < a.size then a.set ⟨i.toNat, h⟩ v
  else a

/-- `a[i]++` on a dense `number[]`. -/
def jsNumInc (a : Array Int) (i : Int) : Except JsErr (Array Int) := do
  let v ← jsNumGet a i
  return jsNumSet a i (v + 1)

/-- Read `a[i]` from a table given as a list literal (`LENGTH_CODES[x]` etc.).
Out of bounds would give `undefined`; the model faults there (unreached). -/
def jsIndex (l : List Int) (i : Int) : Except JsErr Int :=
  if h : 0 ≤ i ∧ i.toNat < l.length then .ok (l.get ⟨i.toNat, h.2⟩)
  else .error .typeError

/-- `Uint8Array` element read.  In bounds in every analysed execution; the
model faults rather than fabricate a value for an out-of-bounds read. -/
def u8Get (a : Array Nat) (i : Int) : Except JsErr Nat :=
  if h : 0 ≤ i ∧ i.toNat < a.size then .ok (a.get ⟨i.toNat, h.2⟩)
  else .error .typeError

/-- `Uint8Array` element store: ToUint8 the value, ignore out-of-range
indices (typed arrays drop such writes). -/
def u8Set (a : Array Nat) (i : Int) (v : Int) : Array Nat :=
  if h : 0 ≤ i ∧ i.toNat < a.size then a.set ⟨i.toNat, h.2⟩ (toUint8 v)
  else a

/-- `Uint8Array.prototype.slice(begin, end)`: a fresh copy of the clamped
range (never a view — this is what loses writes in the ported code). -/
def u8Slice (a : Array Nat) (b e : Int) : Array Nat :=
  let b' := if b < 0 then 0 else min b.toNat a.size
  let e' := if e < 0 then 0 else min e.toNat a.size
  (a.toList.drop b').take (e' - b') |>.toArray

/-- Stable insertion of `x` into a list sorted by the JavaScript comparator
`cmp` (negative means "before"): `x` goes after every element not strictly
greater than it, which matches the stable `Array.prototype.sort`. -/
def jsInsertBy (cmp : α → α → Int) (x : α) : List α → List α
  | [] => [x]
  | y :: ys => if cmp x y < 0 then x :: y :: ys else y :: jsInsertBy cmp x ys

/-- `Array.prototype.sort(cmp)` on a plain array that may contain holes:
present elements are sorted stably by the comparator, holes/`undefined`
move to the end. -/
def jsSortBy (cmp : α → α → Int) (a : Array (Option α)) : Array (Option α) :=
  let present := a.toList.filterMap id
  let sorted := present.foldl (fun acc x => jsInsertBy cmp x acc) []
  (sorted.map some ++ List.replicate (a.size - present.length) none).toArray

end Flate

namespace Flate

/-! ## `src/compress/_flate/token.ts` -/

-- 2 bits:   type   0 = literal  1=EOF  2=Match   3=Unused
-- 8 bits:   xlength = length - MIN_MATCH_LENGTH
-- 22 bits   xoffset = offset - MIN_OFFSET_SIZE, or literal
def LENGTH_SHIFT : Int := 22

def OFFSET_MASK : Int := jsShiftL 1 LENGTH_SHIFT - 1

def LITERAL_TYPE : Int := jsShiftL 0 30

def MATCH_TYPE : Int := jsShiftL 1 30

/-- `LENGTH_CODES[length - MIN_MATCH_LENGTH]` is the length code. -/
def LENGTH_CODES : List Int := [
  0, 1, 2, 3, 4, 5, 6, 7, 8, 8, 9, 9, 10, 10, 11, 11, 12, 12, 12, 12,
  13, 13, 13, 13, 14, 14, 14, 14, 15, 15, 15, 15, 16, 16, 16, 16, 16, 16, 16, 16,
  17, 17, 17, 17, 17, 17, 17, 17, 18, 18, 18, 18, 18, 18, 18, 18, 19, 19, 19, 19,
  19, 19, 19, 19, 20, 20, 20, 20, 20, 20, 20, 20, 20, 20, 20, 20, 20, 20, 20, 20,
  21, 21, 21, 21, 21, 21, 21, 21, 21, 21, 21, 21, 21, 21, 21, 21, 22, 22, 22, 22,
  22, 22, 22, 22, 22, 22, 22, 22, 22, 22, 22, 22, 23, 23, 23, 23, 23, 23, 23, 23,
  23, 23, 23, 23, 23, 23, 23, 23, 24, 24, 24, 24, 24, 24, 24, 24, 24, 24, 24, 24,
  24, 24, 24, 24, 24, 24, 24, 24, 24, 24, 24, 24, 24, 24, 24, 24, 24, 24, 24, 24,
  25, 25, 25, 25, 25, 25, 25, 25, 25, 25, 25, 25, 25, 25, 25, 25, 25, 25, 25, 25,
  25, 25, 25, 25, 25, 25, 25, 25, 25, 25, 25, 25, 26, 26, 26, 26, 26, 26, 26, 26,
  26, 26, 26, 26, 26, 26, 26, 26, 26, 26, 26, 26, 26, 26, 26, 26, 26, 26, 26, 26,
  26, 26, 26, 26, 27, 27, 27, 27, 27, 27, 27, 27, 27, 27, 27, 27, 27, 27, 27, 27,
  27, 27, 27, 27, 27, 27, 27, 27, 27, 27, 27, 27, 27, 27, 27, 28
]

def OFFSET_CODES : List Int := [
  0, 1, 2, 3, 4, 4, 5, 5, 6, 6, 6, 6, 7, 7, 7, 7, 8, 8, 8, 8,
  8, 8, 8, 8, 9, 9, 9, 9, 9, 9, 9, 9, 10, 10, 10, 10, 10, 10, 10, 10,
  10, 10, 10, 10, 10, 10, 10, 10, 11, 11, 11, 11, 11, 11, 11, 11, 11, 11, 11, 11,
  11, 11, 11, 11, 12, 12, 12, 12, 12, 12, 12, 12, 12, 12, 12, 12, 12, 12, 12, 12,
  12, 12, 12, 12, 12, 12, 12, 12, 12, 12, 12, 12, 12, 12, 12, 12, 13, 13, 13, 13,
  13, 13, 13, 13, 13, 13, 13, 13, 13, 13, 13, 13, 13, 13, 13, 13, 13, 13, 13, 13,
  13, 13, 13, 13, 13, 13, 13, 13, 14, 14, 14, 14, 14, 14, 14, 14, 14, 14, 14, 14,
  14, 14, 14, 14, 14, 14, 14, 14, 14, 14, 14, 14, 14, 14, 14, 14, 14, 14, 14, 14,
  14, 14, 14, 14, 14, 14, 14, 14, 14, 14, 14, 14, 14, 14, 14, 14, 14, 14, 14, 14,
  14, 14, 14, 14, 14, 14, 14, 14, 14, 14, 14, 14, 15, 15, 15, 15, 15, 15, 15, 15,
  15, 15, 15, 15, 15, 15, 15, 15, 15, 15, 15, 15, 15, 15, 15, 15, 15, 15, 15, 15,
  15, 15, 15, 15, 15, 15, 15, 15, 15, 15, 15, 15, 15, 15, 15, 15, 15, 15, 15, 15,
  15, 15, 15, 15, 15, 15, 15, 15, 15, 15, 15, 15, 15, 15, 15, 15
]

structure Token where
  value : Int
  deriving DecidableEq, Repr

/-- Returns the literal of a literal token. -/
def Token.literal (t : Token) : Int := t.value - LITERAL_TYPE

/-- Returns the extra offset of a match token. -/
def Token.offset (t : Token) : Int := jsAnd t.value OFFSET_MASK

def Token.length (t : Token) : Int := jsShiftR (t.value - MATCH_TYPE) LENGTH_SHIFT

/-- Convert a literal into a literal token. -/
def literalToken (literal : Int) : Token := ⟨LITERAL_TYPE + literal⟩

/-- Convert a < xlength, xoffset > pair into a match token.  The source text
is `MATCH_TYPE + xlength << LENGTH_SHIFT + xoffset`; under JavaScript
precedence `+` binds tighter than `<<`, so this is
`(MATCH_TYPE + xlength) << (LENGTH_SHIFT + xoffset)`. -/
def matchToken (xlength xoffset : Int) : Token :=
  ⟨jsShiftL (MATCH_TYPE + xlength) (LENGTH_SHIFT + xoffset)⟩

def lengthCode (len : Int) : Except JsErr Int := jsIndex LENGTH_CODES len

/-- Returns the offset code corresponding to a specific offset. -/
def offsetCode (off : Int) : Except JsErr Int :=
  if off < 256 then jsIndex OFFSET_CODES off
  else if jsShiftR off 7 < 256 then do
    let v ← jsIndex OFFSET_CODES (jsShiftR off 7)
    return v + 14
  else do
    let v ← jsIndex OFFSET_CODES (jsShiftR off 14)
    return v + 28

/-! ## `src/compress/_flate/deflatefast.ts` (the part the claims touch) -/

def TABLE_BITS : Int := 14

def TABLE_SHIFT : Int := 32 - TABLE_BITS

/-- The `typeof u === "number"` branch of `hash`:
`Math.floor((u * 0x1e35a7bd) / (2 ** TABLE_SHIFT))`.
The double product `u * 0x1e35a7bd` is exact whenever
`|u| * 0x1e35a7bd < 2^53`, i.e. for every `|u| < 17771882`; all inputs this
development evaluates the function at are far inside that range, where
dividing by `2^18` and flooring is also exact, so `Int` arithmetic is a
faithful model.  Note the source performs no reduction mod `2^32`. -/
def hash (u : Int) : Int := Int.fdiv (u * 0x1e35a7bd) (2 ^ (18 : Nat))

/-- The `typeof u === "bigint"` branch of `hash`: BigInt division truncates
toward zero; the enclosing `Math.floor(Number(...))` rounds the quotient to
a double first, which is the identity below `2^53`. -/
def hashBig (u : Int) : Int := Int.tdiv (u * 0x1e35a7bd) (2 ^ (18 : Nat))

end Flate

namespace Flate

/-! ## `huffman_code.ts` -/

def MAX_NUM_LIT : Int := 286

def MAX_BITS_LIMIT : Int := 16

/-- Source: `const MAX_UINT16 = 2 ^ 16 - 1;` — in JavaScript `^` is bitwise
xor and binds looser than `-`, so this is `2 xor 15 = 13`, not 65535. -/
def MAX_UINT16 : Int := jsXor 2 (16 - 1)

/-- Source: `const MAX_INT32 = 2 ^ 31 - 1;` — likewise `2 xor 30 = 28`. -/
def MAX_INT32 : Int := jsXor 2 (31 - 1)

/-- The state of the constructed tree for a given depth. -/
structure LevelInfo where
  level : Int
  lastFreq : Int
  nextCharFreq : Int
  nextPairFreq : Int
  needed : Int
  deriving DecidableEq, Repr

/-- Huffman code with a bit code and bit length. -/
structure Hcode where
  code : Int := 0
  len : Int := 0
  deriving DecidableEq, Repr

structure LiteralNode where
  literal : Int := 0
  freq : Int := 0
  deriving DecidableEq, Repr

def maxNode : LiteralNode := { literal := MAX_UINT16, freq := MAX_INT32 }

/-- Modelled from the spec: `reverseBits(v)` returns the 16-bit reversal of
`v` (spec §4.1 — `utils.ts` is not among the provided sources; only its unit
test is, and this definition satisfies it:
`reverseBits 0b1011 = 0b1101000000000000` and
`reverseBits 0b1000101100001001 = 0b1001000011010001`). -/
def reverseBits (v : Int) : Int :=
  ((List.range 16).foldl (fun acc i => acc * 2 + ((toUint32 v).toNat >>> i) % 2) 0 : Nat)

def _reverseBits (number bitLength : Int) : Int :=
  reverseBits (jsShiftL number (16 - bitLength))

/-- Huffman-encoder state.  `codes` is `Array.from({length: size})`, i.e.
`size` `undefined` slots; `bitCount` is 17 zeros.  The `freqcache` field is
initialised to `[]` and never assigned afterwards, so
`this.freqcache.slice(0, n)` in `generate` is always `[]`; it is therefore
not carried in the state. -/
structure HuffmanEncoder where
  codes : Array (Option Hcode)
  bitCount : Array Int
  deriving DecidableEq, Repr

/-- `new HuffmanEncoder(size)`. -/
def HuffmanEncoder.new (size : Nat) : HuffmanEncoder :=
  ⟨Array.mkArray size none, Array.mkArray 17 0⟩

/-- `bitLength(freq)`: Σ `freq[i] * codes[i].len` over the non-zero entries. -/
def HuffmanEncoder.bitLength (e : HuffmanEncoder) (freq : Array Int) :
    Except JsErr Int :=
  (List.range freq.size).foldlM (fun total i => do
    let f := freq.get! i
    if f ≠ 0 then
      let c ← jsObjGet e.codes (i : Int)
      return total + f * c.len
    else
      return total) 0

/-- Read `leafCounts[i][j]`.  Both indices lie in `0..15` in every execution
(`1 ≤ level ≤ maxBits ≤ 15`), so a total read with default 0 is faithful. -/
def mat16Get (m : Array (Array Int)) (i j : Int) : Int :=
  (m.getD i.toNat #[]).getD j.toNat 0

/-- Write `leafCounts[i][j] = v` (indices in `0..15`, see `mat16Get`). -/
def mat16Set (m : Array (Array Int)) (i j : Int) (v : Int) : Array (Array Int) :=
  m.setD i.toNat (jsNumSet (m.getD i.toNat #[]) j v)

/-- The pair branch's copy loop:
`for (let k = 0; k < level; k++) leafCounts[level-1][k] = leafCounts[level][k]`. -/
def copyLeafRow (lc : Array (Array Int)) (level : Int) : Array (Array Int) :=
  (List.range level.toNat).foldl
    (fun lc k => mat16Set lc (level - 1) k (mat16Get lc level k)) lc

/-- The replenish loop `while (levels[level - 1].needed > 0) level--`.
`level` decreases each step; 32 fuel covers every possible descent. -/
def bcDescend (levels : Array (Option LevelInfo)) :
    Nat → Int → Except JsErr Int
  | 0, _ => .error .outOfFuel
  | fuel + 1, level => do
    let lm1 ← jsObjGet levels (level - 1)
    if lm1.needed > 0 then bcDescend levels fuel (level - 1) else pure level

/-- The main `while (true)` walk of `bitCounts`.  Each iteration mutates the
level objects in place through the alias `l = levels[level]`; the model reads
the object, updates it functionally and writes it back at each mutation, in
source order.  The source's `if (l.nextPairFreq === Infinity && l.nextCharFreq
== Infinity)` branch is dead — every value stored in a `LevelInfo` field is
produced by integer arithmetic from the (finite) input frequencies and the
constant `MAX_INT32` (which, through the `2 ^ 31 - 1` xor slip, is 28 rather
than Go's `math.MaxInt32`, and in particular never `Infinity`) — and is
therefore not modelled. -/
def bcLoop (list : Array (Option LiteralNode)) (maxBits : Int) :
    Nat → Array (Option LevelInfo) → Array (Array Int) → Int →
    Except JsErr (Array (Array Int))
  | 0, _, _, _ => .error .outOfFuel
  | fuel + 1, levels, leafCounts, level => do
    let l ← jsObjGet levels level
    let prevFreq := l.lastFreq
    let (levels, leafCounts) ←
      if l.nextCharFreq < l.nextPairFreq then do
        -- The next item on this row is a leaf node.
        let n := mat16Get leafCounts level level + 1
        let l := { l with lastFreq := l.nextCharFreq }
        let leafCounts := mat16Set leafCounts level level n
        let nd ← jsObjGet list n
        let l := { l with nextCharFreq := nd.freq }
        pure (jsObjSet levels level l, leafCounts)
      else do
        -- The next item on this row is a pair from the previous row.
        let l := { l with lastFreq := l.nextPairFreq }
        let leafCounts := copyLeafRow leafCounts level
        let levels := jsObjSet levels level l
        let lm1 ← jsObjGet levels (l.level - 1)
        pure (jsObjSet levels (l.level - 1) { lm1 with needed := 2 }, leafCounts)
    let l ← jsObjGet levels level
    let l := { l with needed := l.needed - 1 }
    let levels := jsObjSet levels level l
    if l.needed = 0 then
      if l.level = maxBits then
        pure leafCounts
      else do
        let up ← jsObjGet levels (l.level + 1)
        let levels :=
          jsObjSet levels (l.level + 1)
            { up with nextPairFreq := prevFreq + l.lastFreq }
        bcLoop list maxBits fuel levels leafCounts (level + 1)
    else do
      let newLevel ← bcDescend levels 32 level
      bcLoop list maxBits fuel levels leafCounts newLevel

/-- `bitCounts(list, maxBits)`.  Returns the `bitCount` slice it builds
together with the (mutated) `list`; the `this.bitCount` field itself is NOT
updated — the source writes into the copy made by
`this.bitCount.slice(0, maxBits + 1)`. -/
def HuffmanEncoder.bitCounts (e : HuffmanEncoder)
    (list : Array (Option LiteralNode)) (maxBits : Int) :
    Except JsErr (Array Int × Array (Option LiteralNode)) := do
  if maxBits ≥ MAX_BITS_LIMIT then
    -- throw new Error("flate: maxBits too large")
    .error (.jsError .maxBitsTooLarge)
  else do
  let n : Int := list.size
  let list := jsObjSet list n maxNode
  let maxBits := if maxBits > n - 1 then n - 1 else maxBits
  let levels0 : Array (Option LevelInfo) := Array.mkArray 16 none
  let leafCounts0 : Array (Array Int) := Array.mkArray 16 (Array.mkArray 16 0)
  let (levels, leafCounts) ←
    (List.range maxBits.toNat).foldlM (fun (st : Array (Option LevelInfo) × Array (Array Int)) k => do
      let (levels, leafCounts) := st
      let level : Int := k + 1
      let n1 ← jsObjGet list 1
      let n2 ← jsObjGet list 2
      let n0 ← jsObjGet list 0
      let info : LevelInfo :=
        { level := level, lastFreq := n1.freq, nextCharFreq := n2.freq,
          nextPairFreq := n0.freq + n1.freq, needed := 0 }
      let levels := jsObjSet levels level info
      let leafCounts := mat16Set leafCounts level level 2
      if level = 1 then
        pure (jsObjSet levels level { info with nextPairFreq := MAX_INT32 }, leafCounts)
      else
        pure (levels, leafCounts)) (levels0, leafCounts0)
  -- levels[maxBits].needed = 2 * n - 4
  let top ← jsObjGet levels maxBits
  let levels := jsObjSet levels maxBits { top with needed := 2 * n - 4 }
  let leafCounts ← bcLoop list maxBits 4096 levels leafCounts maxBits
  if mat16Get leafCounts maxBits maxBits ≠ n then
    -- throw new Error("leafCounts[maxBits][maxBits] != n")
    .error (.jsError .leafCountMismatch)
  else do
  let bitCount0 := (e.bitCount.toList.take (maxBits + 1).toNat).toArray
  let counts := leafCounts.getD maxBits.toNat #[]
  let bitCount :=
    (List.range maxBits.toNat).foldl (fun bc k =>
      let level := maxBits - k
      let bits := 1 + (k : Int)
      jsNumSet bc bits (counts.getD level.toNat 0 - counts.getD (level - 1).toNat 0)) bitCount0
  return (bitCount, list)

def compareByLiteral (lhs rhs : LiteralNode) : Int := lhs.literal - rhs.literal

def compareByFreq (lhs rhs : LiteralNode) : Int :=
  if lhs.freq = rhs.freq then lhs.literal - rhs.literal else lhs.freq - rhs.freq

/-- `Array.prototype.slice(begin)` on a plain array: copy from the
(negative-normalised, clamped) index to the end. -/
def jsObjSliceFrom (a : Array (Option α)) (b : Int) : Array (Option α) :=
  let len : Int := a.size
  let b' := if b < 0 then (max 0 (len + b)).toNat else min b.toNat a.size
  (a.toList.drop b').toArray

/-- `Array.prototype.slice(0, end)` on a plain array. -/
def jsObjSliceTo (a : Array (Option α)) (e : Int) : Array (Option α) :=
  let len : Int := a.size
  let e' := if e < 0 then (max 0 (len + e)).toNat else min e.toNat a.size
  (a.toList.take e').toArray

/-- `assignEncodingAndSize(bitCount, list)`: walk the bit counts, peeling the
`bits` highest-frequency literals off the tail of `list` for each length and
assigning consecutive (bit-reversed) codes in ascending literal order. -/
def assignEncodingAndSize (codes : Array (Option Hcode)) (bitCount : Array Int)
    (list : Array (Option LiteralNode)) : Except JsErr (Array (Option Hcode)) := do
  let st ← (List.range bitCount.size).foldlM
    (fun (st : Int × Array (Option LiteralNode) × Array (Option Hcode)) n => do
      let (code, list, codes) := st
      let bits := bitCount.get! n
      let code := jsShiftL code 1
      if n = 0 ∨ bits = 0 then
        pure (code, list, codes)
      else do
        let chunk := jsObjSliceFrom list ((list.size : Int) - bits)
        let chunk := jsSortBy compareByLiteral chunk
        let (codes, code) ← chunk.toList.foldlM
          (fun (st : Array (Option Hcode) × Int) node? => do
            let (codes, code) := st
            match node? with
            | none => .error .typeError  -- `node.literal` on a hole
            | some node =>
              pure (jsObjSet codes node.literal ⟨_reverseBits code n, n⟩, code + 1))
          (codes, code)
        let list := jsObjSliceTo list ((list.size : Int) - bits)
        pure (code, list, codes)) ((0 : Int), list, codes)
  return st.2.2

/-- The list-building loop at the top of `generate`: for each frequency, a
non-zero entry appends a `LiteralNode(i, f)` at position `count`; a zero
entry stores a fresh `new LiteralNode()` at position `count` (without
advancing it) and does `this.codes[i].len = 0` (a TypeError when the slot is
still `undefined`, as it is on a freshly constructed encoder). -/
def buildList : List Int → Int → Array (Option LiteralNode) → Int →
    Array (Option Hcode) →
    Except JsErr (Array (Option LiteralNode) × Int × Array (Option Hcode))
  | [], _, list, count, codes => .ok (list, count, codes)
  | f :: rest, i, list, count, codes =>
    if f ≠ 0 then
      buildList rest (i + 1) (jsObjSet list count ⟨i, f⟩) (count + 1) codes
    else do
      let list := jsObjSet list count {}
      let c ← jsObjGet codes i
      buildList rest (i + 1) list count (jsObjSet codes i { c with len := 0 })

/-- `generate(freq, maxBits)`.  Note that the Go truncation `list =
list[:count]` survives only as a comment in the source, so the `count <= 2`
branch iterates over the whole `list`, placeholder nodes and the final
`list[freq.length] = new LiteralNode()` included. -/
def HuffmanEncoder.generate (e : HuffmanEncoder) (freq : List Int)
    (maxBits : Int) : Except JsErr HuffmanEncoder := do
  -- `const list = this.freqcache.slice(0, freq.length + 1)` — freqcache is
  -- always [] (see `HuffmanEncoder`), so `list` starts empty and grows by
  -- index assignment.
  let (list, count, codes) ← buildList freq 0 #[] 0 e.codes
  let list := jsObjSet list (freq.length : Int) {}
  if count ≤ 2 then do
    let codes ← (List.range list.size).foldlM (fun codes i => do
      let node ← jsObjGet list (i : Int)
      -- this.codes[node.literal].set(i, 1)
      let _ ← jsObjGet codes node.literal
      return jsObjSet codes node.literal ⟨i, 1⟩) codes
    return { e with codes }
  else do
    let list := jsSortBy compareByFreq list
    let (bitCount, list) ← e.bitCounts list maxBits
    let codes ← assignEncodingAndSize codes bitCount list
    return { e with codes }

/-- Generates a HuffmanCode corresponding to the fixed literal table. -/
def generateFixedLiteralEncoding : HuffmanEncoder :=
  let h := HuffmanEncoder.new MAX_NUM_LIT.toNat
  let codes := (List.range h.codes.size).foldl (fun codes ch =>
    let bs : Int × Int :=
      if (ch : Int) < 144 then (ch + 48, 8)
      else if (ch : Int) < 256 then (ch + 400 - 144, 9)
      else if (ch : Int) < 280 then (ch - 256, 7)
      else (ch + 192 - 280, 8)
    jsObjSet codes ch ⟨_reverseBits bs.1 bs.2, bs.2⟩) h.codes
  { h with codes }

def generateFixedOffsetEncoding : HuffmanEncoder :=
  let h := HuffmanEncoder.new 30
  let offset : Int := 5
  let codes := (List.range h.codes.size).foldl (fun codes ch =>
    jsObjSet codes ch ⟨_reverseBits ch offset, offset⟩) h.codes
  { h with codes }

def fixedLiteralEncoding : HuffmanEncoder := generateFixedLiteralEncoding

def fixedOffsetEncoding : HuffmanEncoder := generateFixedOffsetEncoding

end Flate

namespace Flate

/-! ## `huffman_bit_writer.ts` -/

/-- The largest offset code. -/
def OFFSET_CODE_COUNT : Int := 30

/-- The special code used to mark the end of a block. -/
def END_BLOCK_MARKER : Int := 256

/-- The first length code. -/
def LENGTH_CODES_START : Int := 257

/-- The number of codegen codes. -/
def CODEGEN_CODE_COUNT : Int := 19

def BAD_CODE : Int := 255

def BUFFER_FLUSH_SIZE : Int := 240

def BUFFER_SIZE : Int := BUFFER_FLUSH_SIZE + 8

def MAX_STORE_BLOCK_SIZE : Int := 65535

/-- The number of extra bits needed by length code X - LENGTH_CODES_START. -/
def LENGTH_EXTRA_BITS : List Int :=
  [0, 0, 0] ++
  [0, 0, 0, 0, 0, 1, 1, 1, 1, 2] ++
  [2, 2, 2, 3, 3, 3, 3, 4, 4, 4] ++
  [4, 5, 5, 5, 5, 0]

/-- The length indicated by length code X - LENGTH_CODES_START. -/
def LENGTH_BASE : List Int :=
  [0, 1, 2, 3, 4, 5, 6, 7, 8, 10] ++
  [12, 14, 16, 20, 24, 28, 32, 40, 48, 56] ++
  [64, 80, 96, 112, 128, 160, 192, 224, 255]

/-- Offset code word extra bits. -/
def OFFSET_EXTRA_BITS : List Int :=
  [0, 0, 0, 0, 1, 1, 2, 2, 3, 3] ++
  [4, 4, 5, 5, 6, 6, 7, 7, 8, 8] ++
  [9, 9, 10, 10, 11, 11, 12, 12, 13, 13]

def OFFSET_BASE : List Int :=
  [0x000000, 0x000001, 0x000002, 0x000003, 0x000004] ++
  [0x000006, 0x000008, 0x00000c, 0x000010, 0x000018] ++
  [0x000020, 0x000030, 0x000040, 0x000060, 0x000080] ++
  [0x0000c0, 0x000100, 0x000180, 0x000200, 0x000300] ++
  [0x000400, 0x000600, 0x000800, 0x000c00, 0x001000] ++
  [0x001800, 0x002000, 0x003000, 0x004000, 0x006000]

/-- The odd order in which the codegen code sizes are written. -/
def codegenOrder : List Int :=
  [16, 17, 18, 0, 8, 7, 9, 6, 10, 5, 11, 4, 12, 3, 13, 2, 14, 1, 15]

/-- JavaScript `~x` (used by `writeStoredHeader`). -/
def jsNot (x : Int) : Int := toInt32 (-(toInt32 x) - 1)

/-- The bit-writer state.  `output` records the byte chunks delivered to the
underlying sink, in order.  The modelled sink accepts every write (the
`try/catch` in `write` can therefore never latch an error); a failing sink
is represented by starting from a state whose `err` is already set.
Note the constructor sizes of the last two encoders: the source swaps the
`CODEGEN_CODE_COUNT`/`OFFSET_CODE_COUNT` constants
(`offsetEncoding = new HuffmanEncoder(CODEGEN_CODE_COUNT)` and vice versa). -/
structure HuffmanBitWriter where
  bits : Int := 0
  nbits : Int := 0
  bytes : Array Nat := Array.mkArray BUFFER_SIZE.toNat 0
  codegenFreq : Array Int := Array.mkArray CODEGEN_CODE_COUNT.toNat 0
  nbytes : Int := 0
  literalFreq : Array Int := Array.mkArray MAX_NUM_LIT.toNat 0
  offsetFreq : Array Int := Array.mkArray OFFSET_CODE_COUNT.toNat 0
  codegen : Array Nat := Array.mkArray (MAX_NUM_LIT + OFFSET_CODE_COUNT + 1).toNat 0
  literalEncoding : HuffmanEncoder := HuffmanEncoder.new MAX_NUM_LIT.toNat
  offsetEncoding : HuffmanEncoder := HuffmanEncoder.new CODEGEN_CODE_COUNT.toNat
  codegenEncoding : HuffmanEncoder := HuffmanEncoder.new OFFSET_CODE_COUNT.toNat
  err : Option JsErr := none
  output : List (List Nat) := []
  deriving DecidableEq, Repr

/-- `new HuffmanBitWriter(writer)`. -/
def newHuffmanBitWriter : HuffmanBitWriter := {}

/-- `reset(writer)`: replace the sink (the model keeps the recorded output of
the old sink separate by simply clearing it), clear the bit buffer and the
sticky error. -/
def HuffmanBitWriter.reset (w : HuffmanBitWriter) : HuffmanBitWriter :=
  { w with bits := 0, nbits := 0, nbytes := 0, err := none, output := [] }

/-- `write(b)`: no-op when the sticky error is set; otherwise deliver to the
sink.  (The source wraps the sink call in `try/catch` and latches a thrown
error into `err`; the modelled sink never throws.) -/
def HuffmanBitWriter.write (w : HuffmanBitWriter) (b : List Nat) :
    HuffmanBitWriter :=
  if w.err.isSome then w else { w with output := w.output ++ [b] }

/-- The drain loop of `flush`:
`while (nbits !== 0) { bytes[n] = bits; bits >>= 8; if (nbits > 8) nbits -= 8
else nbits = 0; }`.  `n` is a `const` in the source and never changes, so
every iteration overwrites the same slot. -/
def flushLoopF : Nat → Array Nat → Int → Int → Int → Array Nat × Int × Int
  | 0, bytes, bits, nbits, _ => (bytes, bits, nbits)
  | fuel + 1, bytes, bits, nbits, n =>
    if nbits = 0 then (bytes, bits, nbits)
    else
      let bytes := u8Set bytes n bits
      let bits := jsShiftR bits 8
      if 8 < nbits then flushLoopF fuel bytes bits (nbits - 8) n
      else (bytes, bits, 0)

/-- Entry point for the flush drain loop.  `nbits` decreases by 8 per
iteration (or drops to 0), so `nbits.toNat + 1` fuel always suffices and the
fuel-exhaustion base case is unreachable. -/
def flushLoop (bytes : Array Nat) (bits nbits n : Int) :
    Array Nat × Int × Int :=
  flushLoopF (nbits.toNat + 1) bytes bits nbits n

/-- `flush()`.  With `err` set it only zeroes `nbits`.  Otherwise it drains
the pending bits into `bytes[n]` — but since `n` is never incremented (the
Go original increments it), the subsequent `write(this.bytes.slice(0, n))`
excludes every drained byte. -/
def HuffmanBitWriter.flush (w : HuffmanBitWriter) : HuffmanBitWriter :=
  if w.err.isSome then { w with nbits := 0 }
  else
    let n := w.nbytes
    let (bytes, _, _) := flushLoop w.bytes w.bits w.nbits n
    let w := { w with bytes := bytes, bits := 0, nbits := 0 }
    let w := w.write (u8Slice bytes 0 n).toList
    { w with nbytes := 0 }

/-- `writeBits(b, nb)`.  All bit manipulation is through JavaScript's 32-bit
operators (`|=`, `<<`, `>>`), faithfully including the `>>= 48` whose shift
count is taken mod 32 and the `>> 32`/`>> 40` of the byte extraction.  The
six extracted bytes are stored into `this.bytes.slice(n, n + 6)` — a copy,
not a view as in Go — and are therefore discarded. -/
def HuffmanBitWriter.writeBits (w : HuffmanBitWriter) (b nb : Int) :
    HuffmanBitWriter :=
  if w.err.isSome then w
  else
    let bits := jsOr w.bits (jsShiftL b w.nbits)
    let nbits := w.nbits + nb
    if nbits ≥ 48 then
      let bitsVal := bits
      let bits := jsShiftR bits 48
      let nbits := nbits - 48
      let n := w.nbytes
      let bytes6 := u8Slice w.bytes n (n + 6)
      let bytes6 := u8Set bytes6 0 bitsVal
      let bytes6 := u8Set bytes6 1 (jsShiftR bitsVal 8)
      let bytes6 := u8Set bytes6 2 (jsShiftR bitsVal 16)
      let bytes6 := u8Set bytes6 3 (jsShiftR bitsVal 24)
      let bytes6 := u8Set bytes6 4 (jsShiftR bitsVal 32)
      let _bytes6 := u8Set bytes6 5 (jsShiftR bitsVal 40)
      let n := n + 6
      let w := { w with bits := bits, nbits := nbits }
      if n ≥ BUFFER_FLUSH_SIZE then
        let w := w.write (u8Slice w.bytes 0 n).toList
        { w with nbytes := 0 }
      else
        { w with nbytes := n }
    else
      { w with bits := bits, nbits := nbits }

/-- `writeCode(c)`: identical to `writeBits(c.code, c.len)`, kept separate as
in the source. -/
def HuffmanBitWriter.writeCode (w : HuffmanBitWriter) (c : Hcode) :
    HuffmanBitWriter :=
  if w.err.isSome then w
  else
    let bits := jsOr w.bits (jsShiftL c.code w.nbits)
    let nbits := w.nbits + c.len
    if nbits ≥ 48 then
      let bitsVal := bits
      let bits := jsShiftR bits 48
      let nbits := nbits - 48
      let n := w.nbytes
      let bytes6 := u8Slice w.bytes n (n + 6)
      let bytes6 := u8Set bytes6 0 bitsVal
      let bytes6 := u8Set bytes6 1 (jsShiftR bitsVal 8)
      let bytes6 := u8Set bytes6 2 (jsShiftR bitsVal 16)
      let bytes6 := u8Set bytes6 3 (jsShiftR bitsVal 24)
      let bytes6 := u8Set bytes6 4 (jsShiftR bitsVal 32)
      let _bytes6 := u8Set bytes6 5 (jsShiftR bitsVal 40)
      let n := n + 6
      let w := { w with bits := bits, nbits := nbits }
      if n ≥ BUFFER_FLUSH_SIZE then
        let w := w.write (u8Slice w.bytes 0 n).toList
        { w with nbytes := 0 }
      else
        { w with nbytes := n }
    else
      { w with bits := bits, nbits := nbits }

/-- The drain loop of `writeBytes`:
`while (nbits !== 0) { bytes[n] = bits; bits >>= 8; nbits -= 8; n++; }`.
Here `nbits` is a non-negative multiple of 8 (guaranteed by the alignment
check just before), so the `0 < nbits` guard is equivalent to the source's
`nbits !== 0` (a negative `nbits` would not terminate in JavaScript and is
unreachable). -/
def writeBytesLoopF : Nat → Array Nat → Int → Int → Int → Array Nat × Int × Int
  | 0, bytes, bits, _, n => (bytes, bits, n)
  | fuel + 1, bytes, bits, nbits, n =>
    if 0 < nbits then
      let bytes := u8Set bytes n bits
      writeBytesLoopF fuel bytes (jsShiftR bits 8) (nbits - 8) (n + 1)
    else (bytes, bits, n)

/-- Entry point for the `writeBytes` drain loop: `nbits.toNat + 1` fuel
always suffices (8 consumed per iteration). -/
def writeBytesLoop (bytes : Array Nat) (bits nbits n : Int) :
    Array Nat × Int × Int :=
  writeBytesLoopF (nbits.toNat + 1) bytes bits nbits n

/-- `writeBytes(bytes)`: requires a byte-aligned bit buffer (else latches the
internal misuse error), drains the remaining full bytes into staging,
flushes staging, then writes `bytes` directly to the sink. -/
def HuffmanBitWriter.writeBytes (w : HuffmanBitWriter) (bytes : List Nat) :
    HuffmanBitWriter :=
  if w.err.isSome then w
  else
    let n := w.nbytes
    if jsAnd w.nbits 7 ≠ 0 then
      -- new Error("flate: internal error: writeBytes with unfinished bits")
      { w with err := some (.jsError .writeBytesUnfinishedBits) }
    else
      let (buf, bits, n) := writeBytesLoop w.bytes w.bits w.nbits n
      let w := { w with bytes := buf, bits := bits, nbits := 0 }
      let w := if n ≠ 0 then w.write (u8Slice buf 0 n).toList else w
      let w := { w with nbytes := 0 }
      w.write bytes

end Flate

namespace Flate

/-- The `while (count >= 3)` repeat-emission loop of the non-zero branch of
`generateCodegen`: emit symbol 16 with chunk size `n = min(6, count)`.
Returns `(codegen, codegenFreq, count, outIndex)`. -/
def rle16F : Nat → Array Nat → Array Int → Int → Int →
    Except JsErr (Array Nat × Array Int × Int × Int)
  | 0, codegen, freq, count, outIndex => .ok (codegen, freq, count, outIndex)
  | fuel + 1, codegen, freq, count, outIndex =>
    if 3 ≤ count then do
      let n := if 6 > count then count else 6
      let codegen := u8Set codegen outIndex 16
      let codegen := u8Set codegen (outIndex + 1) (n - 3)
      let freq ← jsNumInc freq 16
      rle16F fuel codegen freq (count - n) (outIndex + 2)
    else .ok (codegen, freq, count, outIndex)

/-- The `while (count >= 3)` loop consumes at least 3 per iteration, so
`count.toNat + 1` fuel always suffices. -/
def rle16 (codegen : Array Nat) (freq : Array Int) (count outIndex : Int) :
    Except JsErr (Array Nat × Array Int × Int × Int) :=
  rle16F (count.toNat + 1) codegen freq count outIndex

/-- The `while (count >= 11)` zero-run loop of `generateCodegen`: emit symbol
18 with chunk size `n = min(138, count)`. -/
def rle18F : Nat → Array Nat → Array Int → Int → Int →
    Except JsErr (Array Nat × Array Int × Int × Int)
  | 0, codegen, freq, count, outIndex => .ok (codegen, freq, count, outIndex)
  | fuel + 1, codegen, freq, count, outIndex =>
    if 11 ≤ count then do
      let n := if 138 > count then count else 138
      let codegen := u8Set codegen outIndex 18
      let codegen := u8Set codegen (outIndex + 1) (n - 11)
      let freq ← jsNumInc freq 18
      rle18F fuel codegen freq (count - n) (outIndex + 2)
    else .ok (codegen, freq, count, outIndex)

/-- The `while (count >= 11)` loop consumes at least 11 per iteration, so
`count.toNat + 1` fuel always suffices. -/
def rle18 (codegen : Array Nat) (freq : Array Int) (count outIndex : Int) :
    Except JsErr (Array Nat × Array Int × Int × Int) :=
  rle18F (count.toNat + 1) codegen freq count outIndex

/-- The trailing `for (; count >= 0; count--)` literal-emission loop of
`generateCodegen`. -/
def rleLitsF : Nat → Array Nat → Array Int → Int → Int → Int →
    Except JsErr (Array Nat × Array Int × Int)
  | 0, codegen, freq, _, _, outIndex => .ok (codegen, freq, outIndex)
  | fuel + 1, codegen, freq, size, count, outIndex =>
    if 0 ≤ count then do
      let codegen := u8Set codegen outIndex size
      let freq ← jsNumInc freq size
      rleLitsF fuel codegen freq size (count - 1) (outIndex + 1)
    else .ok (codegen, freq, outIndex)

/-- The `for (; count >= 0; count--)` loop runs `count + 1` times, so
`(count + 1).toNat + 1` fuel always suffices. -/
def rleLits (codegen : Array Nat) (freq : Array Int) (size count outIndex : Int) :
    Except JsErr (Array Nat × Array Int × Int) :=
  rleLitsF ((count + 1).toNat + 1) codegen freq size count outIndex

/-- The main run-length scan of `generateCodegen`
(`for (let inIndex = 1; size != BAD_CODE; inIndex++)`), reading and writing
the single (aliased) `codegen` array.  The scan consumes one input byte per
step and the input is sentinel-terminated, so 400 fuel covers the
317-byte buffer. -/
def rleLoop : Nat → Array Nat → Array Int → Int → Int → Int → Int →
    Except JsErr (Array Nat × Array Int × Int)
  | 0, _, _, _, _, _, _ => .error .outOfFuel
  | fuel + 1, codegen, freq, size, count, inIndex, outIndex => do
    if size = BAD_CODE then return (codegen, freq, outIndex)
    else do
      let nextSize ← u8Get codegen inIndex
      if (nextSize : Int) = size then
        rleLoop fuel codegen freq size (count + 1) (inIndex + 1) outIndex
      else do
        let (codegen, freq, count, outIndex) ←
          if size ≠ 0 then do
            let codegen := u8Set codegen outIndex size
            let outIndex := outIndex + 1
            let freq ← jsNumInc freq size
            rle16 codegen freq (count - 1) outIndex
          else do
            let (codegen, freq, count, outIndex) ← rle18 codegen freq count outIndex
            if count ≥ 3 then do
              -- count >= 3 && count <= 10
              let codegen := u8Set codegen outIndex 17
              let codegen := u8Set codegen (outIndex + 1) (count - 3)
              let freq ← jsNumInc freq 17
              pure (codegen, freq, (0 : Int), outIndex + 2)
            else
              pure (codegen, freq, count, outIndex)
        let count := count - 1
        let (codegen, freq, outIndex) ← rleLits codegen freq size count outIndex
        rleLoop fuel codegen freq nextSize 1 (inIndex + 1) outIndex

/-- `generateCodegen(numLiterals, numOffsets, litEnc, offEnc)` (RFC 1951
3.2.7 run-length encoding).  NOTE the port slip this development exercises:
`let cgnl = codegen.slice(0, numLiterals)` copies (Go's subslice aliases), so
the loops that store the literal/offset code lengths mutate only the
discarded copies and `codegen` keeps its previous contents; only the
sentinel store and the RLE rewrite below touch `codegen` itself. -/
def HuffmanBitWriter.generateCodegen (w : HuffmanBitWriter)
    (numLiterals numOffsets : Int) (litEnc offEnc : HuffmanEncoder) :
    Except JsErr HuffmanBitWriter := do
  let codegenFreq := w.codegenFreq.map (fun _ => 0)
  let codegen := w.codegen
  let cgnl0 := u8Slice codegen 0 numLiterals
  let _cgnl ← (List.range cgnl0.size).foldlM (fun (cg : Array Nat) i => do
      let c ← jsObjGet litEnc.codes (i : Int)
      return u8Set cg i c.len) cgnl0
  let cgnl1 := u8Slice codegen numLiterals (numLiterals + numOffsets)
  let _cgnl2 ← (List.range cgnl1.size).foldlM (fun (cg : Array Nat) i => do
      let c ← jsObjGet offEnc.codes (i : Int)
      return u8Set cg i c.len) cgnl1
  let codegen := u8Set codegen (numLiterals + numOffsets) BAD_CODE
  let size ← u8Get codegen 0
  let (codegen, codegenFreq, outIndex) ←
    rleLoop 400 codegen codegenFreq (size : Int) 1 1 0
  -- Marker indicating the end of the codegen.
  let codegen := u8Set codegen outIndex BAD_CODE
  return { w with codegen := codegen, codegenFreq := codegenFreq }

/-- The trim loop of `dynamicSize`: `while (numCodegens > 4 &&
codegenFreq[codegenOrder[numCodegens - 1]] === 0) numCodegens--`. -/
def numCodegensLoop (codegenFreq : Array Int) : Nat → Int → Except JsErr Int
  | 0, _ => .error .outOfFuel
  | fuel + 1, nc =>
    if nc > 4 then do
      let idx ← jsIndex codegenOrder (nc - 1)
      let v ← jsNumGet codegenFreq idx
      if v = 0 then numCodegensLoop codegenFreq fuel (nc - 1) else .ok nc
    else .ok nc

/-- `dynamicSize(litEnc, offEnc, extraBits)`: returns `(size, numCodegens)`.
(`this.codegenFreq.slice()` passes a copy with identical contents.) -/
def HuffmanBitWriter.dynamicSize (w : HuffmanBitWriter)
    (litEnc offEnc : HuffmanEncoder) (extraBits : Int) :
    Except JsErr (Int × Int) := do
  let numCodegens ← numCodegensLoop w.codegenFreq 20 (w.codegenFreq.size : Int)
  let cbl ← w.codegenEncoding.bitLength w.codegenFreq
  let f16 ← jsNumGet w.codegenFreq 16
  let f17 ← jsNumGet w.codegenFreq 17
  let f18 ← jsNumGet w.codegenFreq 18
  let header := 3 + 5 + 5 + 4 + 3 * numCodegens + cbl + f16 * 2 + f17 * 3 + f18 * 7
  let lbl ← litEnc.bitLength w.literalFreq
  let obl ← offEnc.bitLength w.offsetFreq
  return (header + lbl + obl + extraBits, numCodegens)

/-- `fixedSize(extraBits)`. -/
def HuffmanBitWriter.fixedSize (w : HuffmanBitWriter) (extraBits : Int) :
    Except JsErr Int := do
  let a ← fixedLiteralEncoding.bitLength w.literalFreq
  let b ← fixedOffsetEncoding.bitLength w.offsetFreq
  return 3 + a + b + extraBits

/-- `storedSize(inBytes)`: size in bits and whether the input fits in a
single stored block.  (A method on the writer in the source, but it reads no
instance state.) -/
def storedSize (inBytes : Option (List Nat)) : Int × Bool :=
  match inBytes with
  | none => (0, false)
  | some b =>
    if (b.length : Int) ≤ MAX_STORE_BLOCK_SIZE then
      (((b.length : Int) + 5) * 8, true)
    else (0, false)

/-- The codegen emission `while (true)` loop of `writeDynamicHeader`. -/
def dynHeaderLoop : Nat → HuffmanBitWriter → Int →
    Except JsErr HuffmanBitWriter
  | 0, _, _ => .error .outOfFuel
  | fuel + 1, w, i => do
    let codeWord ← u8Get w.codegen i
    let i := i + 1
    if (codeWord : Int) = BAD_CODE then return w
    else do
      let c ← jsObjGet w.codegenEncoding.codes (codeWord : Int)
      let w := w.writeCode c
      if (codeWord : Int) = 16 then do
        let v ← u8Get w.codegen i
        dynHeaderLoop fuel (w.writeBits (v : Int) 2) (i + 1)
      else if (codeWord : Int) = 17 then do
        let v ← u8Get w.codegen i
        dynHeaderLoop fuel (w.writeBits (v : Int) 3) (i + 1)
      else if (codeWord : Int) = 18 then do
        let v ← u8Get w.codegen i
        dynHeaderLoop fuel (w.writeBits (v : Int) 7) (i + 1)
      else
        dynHeaderLoop fuel w i

/-- `writeDynamicHeader(numLiterals, numOffsets, numCodegens, isEof)`. -/
def HuffmanBitWriter.writeDynamicHeader (w : HuffmanBitWriter)
    (numLiterals numOffsets numCodegens : Int) (isEof : Bool) :
    Except JsErr HuffmanBitWriter := do
  if w.err.isSome then return w
  else do
  let firstBits : Int := if isEof then 5 else 4
  let w := w.writeBits firstBits 3
  let w := w.writeBits (numLiterals - 257) 5
  let w := w.writeBits (numOffsets - 1) 5
  let w := w.writeBits (numCodegens - 4) 4
  let w ← (List.range numCodegens.toNat).foldlM (fun (w : HuffmanBitWriter) i => do
      let idx ← jsIndex codegenOrder (i : Int)
      let c ← jsObjGet w.codegenEncoding.codes idx
      return w.writeBits c.len 3) w
  dynHeaderLoop 400 w 0

/-- `writeStoredHeader(length, isEof)`. -/
def HuffmanBitWriter.writeStoredHeader (w : HuffmanBitWriter)
    (length : Int) (isEof : Bool) : HuffmanBitWriter :=
  if w.err.isSome then w
  else
    let flag : Int := if isEof then 1 else 0
    let w := w.writeBits flag 3
    let w := w.flush
    let w := w.writeBits length 16
    w.writeBits (jsNot length) 16

/-- `writeFixedHeader(isEof)`. -/
def HuffmanBitWriter.writeFixedHeader (w : HuffmanBitWriter) (isEof : Bool) :
    HuffmanBitWriter :=
  if w.err.isSome then w
  else
    let value : Int := if isEof then 3 else 2
    w.writeBits value 3

/-- `while (freq[n - 1] === 0) n--`: backward scan for the position past the
last non-zero entry.  At `n = 0` the source reads `freq[-1]`, which is
`undefined`, and `undefined === 0` is false, stopping the loop — hence the
result 0 there.  (The literal-frequency loop in the source relies on exactly
that; the offset-frequency loop has an explicit `n > 0` guard with the same
semantics.) -/
def scanNonzero (freq : Array Int) : Nat → Int
  | 0 => 0
  | n + 1 => if freq.getD n 0 = 0 then scanNonzero freq n else (n + 1 : Int)

/-- `indexTokens(tokens)`: zero and rebuild the frequency tables, compute
`numLiterals`/`numOffsets`, force a non-empty offset alphabet, and generate
both dynamic encodings. -/
def HuffmanBitWriter.indexTokens (w : HuffmanBitWriter) (tokens : List Token) :
    Except JsErr (Int × Int × HuffmanBitWriter) := do
  let literalFreq := w.literalFreq.map (fun _ => (0 : Int))
  let offsetFreq := w.offsetFreq.map (fun _ => (0 : Int))
  let (literalFreq, offsetFreq) ←
    tokens.foldlM (fun (st : Array Int × Array Int) token => do
      let (lf, sf) := st
      if token.value < MATCH_TYPE then do
        let lf ← jsNumInc lf token.literal
        pure (lf, sf)
      else do
        let length := token.length
        let offset := token.offset
        let lc ← lengthCode length
        let lf ← jsNumInc lf (LENGTH_CODES_START + lc)
        let oc ← offsetCode offset
        let sf ← jsNumInc sf oc
        pure (lf, sf)) (literalFreq, offsetFreq)
  let numLiterals := scanNonzero literalFreq literalFreq.size
  let numOffsets := scanNonzero offsetFreq offsetFreq.size
  let (offsetFreq, numOffsets) :=
    if numOffsets = 0 then
      -- count at least one offset so the offset huffman tree can be encoded
      (jsNumSet offsetFreq 0 1, (1 : Int))
    else (offsetFreq, numOffsets)
  let litEnc ← w.literalEncoding.generate literalFreq.toList 15
  let offEnc ← w.offsetEncoding.generate offsetFreq.toList 15
  return (numLiterals, numOffsets,
    { w with literalFreq := literalFreq, offsetFreq := offsetFreq,
             literalEncoding := litEnc, offsetEncoding := offEnc })

/-- `writeTokens(tokens, leCodes, oeCodes)`. -/
def HuffmanBitWriter.writeTokens (w : HuffmanBitWriter) (tokens : List Token)
    (leCodes oeCodes : Array (Option Hcode)) : Except JsErr HuffmanBitWriter := do
  if w.err.isSome then return w
  else
  tokens.foldlM (fun (w : HuffmanBitWriter) token => do
    if token.value < MATCH_TYPE then do
      let c ← jsObjGet leCodes token.literal
      return w.writeCode c
    else do
      -- Write the length
      let length := token.length
      let lCode ← lengthCode length
      let c ← jsObjGet leCodes (lCode + LENGTH_CODES_START)
      let w := w.writeCode c
      let extraLengthBits ← jsIndex LENGTH_EXTRA_BITS lCode
      let w ←
        if extraLengthBits > 0 then do
          let base ← jsIndex LENGTH_BASE lCode
          pure (w.writeBits (length - base) extraLengthBits)
        else pure w
      -- Write the offset
      let offset := token.offset
      let oCode ← offsetCode offset
      let c2 ← jsObjGet oeCodes oCode
      let w := w.writeCode c2
      let extraOffsetBits ← jsIndex OFFSET_EXTRA_BITS oCode
      if extraOffsetBits > 0 then do
        let base ← jsIndex OFFSET_BASE oCode
        pure (w.writeBits (offset - base) extraOffsetBits)
      else pure w) w

end Flate

namespace Flate

/-- The extra-bits accounting of `writeBlock` (only performed when the input
is storable): length codes from `LENGTH_CODES_START + 8` up to
`numLiterals`, then offset codes from 4 up to `numOffsets`. -/
def HuffmanBitWriter.extraBitsFor (w : HuffmanBitWriter)
    (numLiterals numOffsets : Int) : Except JsErr Int := do
  let extraBits ← (List.range (numLiterals - (LENGTH_CODES_START + 8)).toNat).foldlM
    (fun (acc : Int) k => do
      let lc := LENGTH_CODES_START + 8 + (k : Int)
      let f ← jsNumGet w.literalFreq lc
      let e ← jsIndex LENGTH_EXTRA_BITS (lc - LENGTH_CODES_START)
      return acc + f * e) 0
  (List.range (numOffsets - 4).toNat).foldlM
    (fun (acc : Int) k => do
      let oc := 4 + (k : Int)
      let f ← jsNumGet w.offsetFreq oc
      let e ← jsIndex OFFSET_EXTRA_BITS oc
      return acc + f * e) extraBits

/-- `writeBlock(tokens, eof, input)`: choose the smallest of the fixed,
dynamic and (when the raw input is available and fits) stored encodings.
The source's final dispatch tests `literalEncoding === fixedLiteralEncoding`
— object identity, which holds exactly when the dynamic encoding was not
selected (the writer's own encoder object is never the module-level fixed
encoder object); the model tracks that with the `useDynamic` flag. -/
def HuffmanBitWriter.writeBlock (w : HuffmanBitWriter) (tokens : List Token)
    (eof : Bool) (input : Option (List Nat)) : Except JsErr HuffmanBitWriter := do
  if w.err.isSome then return w
  else do
  let tokens := tokens ++ [⟨END_BLOCK_MARKER⟩]
  let (numLiterals, numOffsets, w) ← w.indexTokens tokens
  let (storedSizeV, storable) := storedSize input
  let extraBits ← if storable then w.extraBitsFor numLiterals numOffsets else pure 0
  -- Fixed Huffman baseline.
  let size ← w.fixedSize extraBits
  let w ← w.generateCodegen numLiterals numOffsets w.literalEncoding w.offsetEncoding
  let cge ← w.codegenEncoding.generate w.codegenFreq.toList 7
  let w := { w with codegenEncoding := cge }
  let (dynamicSizeV, numCodegens) ← w.dynamicSize w.literalEncoding w.offsetEncoding extraBits
  let (size, useDynamic) :=
    if dynamicSizeV < size then (dynamicSizeV, true) else (size, false)
  -- Stored bytes?
  if storable ∧ storedSizeV < size then do
    let w := w.writeStoredHeader ((input.getD []).length : Int) eof
    return w.writeBytes (input.getD [])
  else do
  let w ←
    if useDynamic then
      w.writeDynamicHeader numLiterals numOffsets numCodegens eof
    else
      pure (w.writeFixedHeader eof)
  let (leCodes, oeCodes) :=
    if useDynamic then (w.literalEncoding.codes, w.offsetEncoding.codes)
    else (fixedLiteralEncoding.codes, fixedOffsetEncoding.codes)
  w.writeTokens tokens leCodes oeCodes

/-- The stored-fallback test shared by `writeBlockDynamic` and
`writeBlockHuff`: the source text is `storable && ssize < (size + size >> 4)`
and JavaScript `+` binds tighter than `>>`, so the comparison is against
`(size + size) >> 4`, i.e. `size / 8` — not `size + size / 16`. -/
def storedFallbackTest (ssize size : Int) (storable : Bool) : Bool :=
  storable && decide (ssize < jsShiftR (size + size) 4)

/-- `writeBlockDynamic(tokens, eof, input)`: always dynamic, unless the
stored fallback test fires. -/
def HuffmanBitWriter.writeBlockDynamic (w : HuffmanBitWriter)
    (tokens : List Token) (eof : Bool) (input : Option (List Nat)) :
    Except JsErr HuffmanBitWriter := do
  if w.err.isSome then return w
  else do
  let tokens := tokens ++ [⟨END_BLOCK_MARKER⟩]
  let (numLiterals, numOffsets, w) ← w.indexTokens tokens
  let w ← w.generateCodegen numLiterals numOffsets w.literalEncoding w.offsetEncoding
  let cge ← w.codegenEncoding.generate w.codegenFreq.toList 7
  let w := { w with codegenEncoding := cge }
  let (size, numCodegens) ← w.dynamicSize w.literalEncoding w.offsetEncoding 0
  -- Store bytes, if we don't get a reasonable improvement.
  let (ssize, storable) := storedSize input
  if storedFallbackTest ssize size storable then do
    let w := w.writeStoredHeader ((input.getD []).length : Int) eof
    return w.writeBytes (input.getD [])
  else do
  let w ← w.writeDynamicHeader numLiterals numOffsets numCodegens eof
  w.writeTokens tokens w.literalEncoding.codes w.offsetEncoding.codes

/-- `histogram(b, h)`.  The body's first statement `h = h.slice(0, 256)`
rebinds the parameter to a fresh copy (`Array.prototype.slice` never
aliases), so the increment loop mutates only that copy.  The first component
of the result is the array as the caller observes it after the call —
unchanged; the second is the local copy the increments went into. -/
def histogram (b : List Nat) (h : Array Int) : Array Int × Array Int :=
  let hLocal := (h.toList.take 256).toArray
  let hLocal := b.foldl (fun (acc : Array Int) (t : Nat) =>
    let v := acc.getD t 0
    jsNumSet acc (t : Int) (v + 1)) hLocal
  (h, hLocal)

/-- The frequency table `writeBlockHuff` builds before generating its literal
encoding: zero `literalFreq`, run `histogram` over the input (whose effect on
the caller's array is nil — see `histogram`), then set
`literalFreq[END_BLOCK_MARKER] = 1`. -/
def HuffmanBitWriter.writeBlockHuffFreq (w : HuffmanBitWriter)
    (input : List Nat) : Array Int :=
  let lf := w.literalFreq.map (fun _ => (0 : Int))
  let lf := (histogram input lf).1
  jsNumSet lf END_BLOCK_MARKER 1

/-- `huffOffset`: the lazily-initialised singleton offset encoder used by
Huffman-only encoding (a single used offset symbol).  Building it calls
`generate` on a freshly constructed encoder. -/
def huffOffset : Except JsErr HuffmanEncoder :=
  (HuffmanEncoder.new OFFSET_CODE_COUNT.toNat).generate
    (jsNumSet (Array.mkArray OFFSET_CODE_COUNT.toNat 0) 0 1).toList 15

/-- The inlined byte-emission loop of `writeBlockHuff` (writeCode inlined on
the hot path).  The `if (this.err) return` early exit after a buffer flush is
unreachable here because the modelled sink never fails. -/
def writeBlockHuffLoop (encoding : Array (Option Hcode)) :
    List Nat → HuffmanBitWriter → Int →
    Except JsErr (HuffmanBitWriter × Int)
  | [], w, n => .ok (w, n)
  | t :: rest, w, n => do
    let c ← jsObjGet encoding (t : Int)
    let bits := jsOr w.bits (jsShiftL c.code w.nbits)
    let nbits := w.nbits + c.len
    if nbits < 48 then
      writeBlockHuffLoop encoding rest { w with bits := bits, nbits := nbits } n
    else do
      -- Store 6 bytes
      let bitsVal := bits
      let bits := jsShiftR bits 48
      let nbits := nbits - 48
      let bytes6 := u8Slice w.bytes n (n + 6)
      let bytes6 := u8Set bytes6 0 bitsVal
      let bytes6 := u8Set bytes6 1 (jsShiftR bitsVal 8)
      let bytes6 := u8Set bytes6 2 (jsShiftR bitsVal 16)
      let bytes6 := u8Set bytes6 3 (jsShiftR bitsVal 24)
      let bytes6 := u8Set bytes6 4 (jsShiftR bitsVal 32)
      let _bytes6 := u8Set bytes6 5 (jsShiftR bitsVal 40)
      let n := n + 6
      let w := { w with bits := bits, nbits := nbits }
      if n < BUFFER_FLUSH_SIZE then
        writeBlockHuffLoop encoding rest w n
      else do
        let w := w.write (u8Slice w.bytes 0 n).toList
        writeBlockHuffLoop encoding rest w 0

/-- `writeBlockHuff(eof, input)`: Huffman-only encoding of raw bytes, with
the stored fallback. -/
def HuffmanBitWriter.writeBlockHuff (w : HuffmanBitWriter) (eof : Bool)
    (input : List Nat) : Except JsErr HuffmanBitWriter := do
  if w.err.isSome then return w
  else do
  let w := { w with literalFreq := w.writeBlockHuffFreq input }
  let numLiterals : Int := END_BLOCK_MARKER + 1
  let w := { w with offsetFreq := jsNumSet w.offsetFreq 0 1 }
  let numOffsets : Int := 1
  let litEnc ← w.literalEncoding.generate w.literalFreq.toList 15
  let w := { w with literalEncoding := litEnc }
  let ho ← huffOffset
  let w ← w.generateCodegen numLiterals numOffsets w.literalEncoding ho
  let cge ← w.codegenEncoding.generate w.codegenFreq.toList 7
  let w := { w with codegenEncoding := cge }
  let ho2 ← huffOffset
  let (size, numCodegens) ← w.dynamicSize w.literalEncoding ho2 0
  -- Store bytes, if we don't get a reasonable improvement.
  let (ssize, storable) := storedSize (some input)
  if storedFallbackTest ssize size storable then do
    let w := w.writeStoredHeader (input.length : Int) eof
    return w.writeBytes input
  else do
  let w ← w.writeDynamicHeader numLiterals numOffsets numCodegens eof
  let encoding := jsObjSliceTo w.literalEncoding.codes 257
  let (w, n) ← writeBlockHuffLoop encoding input w w.nbytes
  let w := { w with nbytes := n }
  let c ← jsObjGet encoding END_BLOCK_MARKER
  return w.writeCode c

end Flate

namespace Flate

instance {ε α : Type _} [DecidableEq ε] [DecidableEq α] :
    DecidableEq (Except ε α) := fun a b =>
  match a, b with
  | .ok x, .ok y =>
    if h : x = y then isTrue (by rw [h]) else
      isFalse (fun hh => h (by cases hh; rfl))
  | .error x, .error y =>
    if h : x = y then isTrue (by rw [h]) else
      isFalse (fun hh => h (by cases hh; rfl))
  | .ok _, .error _ => isFalse (fun hh => by cases hh)
  | .error _, .ok _ => isFalse (fun hh => by cases hh)

/-! ## Claim theorems -/

set_option maxRecDepth 100000

/-- C1: the bit-writer round-trip claim fails on the code.  After
`writeBits(1, 1)` (a valid call: `nb + nbits = 1 ≤ 64`, `v = 1 < 2^1`)
followed by `flush()` on a fresh writer, the sink receives no bytes at all —
the LSB-first reading of the delivered stream is empty, not the single
written 1-bit (which would require the byte 0x01).  The drain loop of
`flush` does place the byte 0x01 in `bytes[0]`, but `n` is `const` and never
advanced, so `write(this.bytes.slice(0, n))` with `n = 0` delivers nothing. -/
theorem c1_flush_drops_pending_bits :
    (newHuffmanBitWriter.writeBits 1 1).flush.output = [[]] ∧
    (newHuffmanBitWriter.writeBits 1 1).flush.bytes.toList.take 1 = [1] := by
  decide

/-- C2: `generateCodegen` does not emit the RFC 1951 3.2.7 run-length
encoding of the encoders' code lengths.  With `numLiterals = 257`,
`numOffsets = 1`, a literal encoder whose 286 codes all have length 8 and an
offset encoder whose 30 codes all have length 5 (all lengths assigned), the
claim requires `codegen` to begin with the literal size 8 and `codegenFreq`
to count a symbol 8 and 43 repeats (symbol 16); instead the code-length
copies land in `slice` copies, `codegen` still holds its initial zeros, and
the result is the encoding of a 258-long zero run: `[18, 127, 18, 109, 255]`
with `codegenFreq[18] = 2` and every other frequency 0. -/
theorem c2_generateCodegen_ignores_encoders :
    (newHuffmanBitWriter.generateCodegen 257 1
        ⟨Array.mkArray 286 (some ⟨0, 8⟩), Array.mkArray 17 0⟩
        ⟨Array.mkArray 30 (some ⟨0, 5⟩), Array.mkArray 17 0⟩).map
      (fun w => (w.codegen.toList.take 5, w.codegenFreq.toList)) =
    .ok ([18, 127, 18, 109, 255],
         [0, 0, 0, 0, 0, 0, 0, 0, 0, 0, 0, 0, 0, 0, 0, 0, 0, 0, 2]) := by
  decide

/-- C3: `matchToken(1, 0)` (xlength 1, xoffset 0, both in the claimed
ranges) produces the value `(MATCH_TYPE + 1) << 22 = 4194304` under
JavaScript precedence — bit 30 is NOT set (the value is below `MATCH_TYPE`,
so the token classifies as a literal), and the `length()` accessor returns
-255, not the xlength 1. -/
theorem c3_matchToken_precedence :
    (matchToken 1 0).value = 4194304 ∧
    (matchToken 1 0).value < MATCH_TYPE ∧
    Token.length (matchToken 1 0) = -255 := by
  decide

/-- C4: the stored-vs-dynamic decision of `writeBlockDynamic` is not
`storedSize < dynamicSize + dynamicSize/16`.  At `ssize = 48` (a 1-byte
storable input: `storedSize = (1+5)*8`) and `dynamicSize = 64` the claimed
condition holds (48 < 64 + 4) yet the code's guard — `(size + size) >> 4`
under JavaScript precedence, i.e. 8 — rejects the stored block.  Moreover
the end-to-end call on a fresh writer cannot emit any block at all: it
throws a TypeError inside `indexTokens` (the encoders' `codes` slots are
still `undefined`). -/
theorem c4_stored_margin_precedence :
    storedSize (some [0]) = (48, true) ∧
    storedFallbackTest 48 64 true = false ∧
    ((48 : Int) < 64 + 64 / 16) ∧
    newHuffmanBitWriter.writeBlockDynamic [] false (some [0]) =
      .error .typeError := by
  decide

/-- C5: the `count <= 2` branch of `generate` does not assign code values in
sorted order of first appearance.  For `freq = [1, 1]` (two used symbols) on
an encoder whose two code slots are populated, the claim requires
`codes = [(0, 1), (1, 1)]`; the loop, which runs over the whole `list`
including the trailing placeholder `new LiteralNode()` (the Go truncation
`list = list[:count]` survives only as a comment), re-assigns symbol 0 from
the placeholder and leaves `codes[0] = (2, 1)` — the value 2 is not even
expressible in the assigned bit length 1. -/
theorem c5_small_case_placeholder_clobbers :
    (HuffmanEncoder.generate ⟨#[some {}, some {}], Array.mkArray 17 0⟩
        [1, 1] 7).map (fun e => e.codes.toList) =
    .ok [some ⟨2, 1⟩, some ⟨1, 1⟩] := by
  decide

/-- C6: Huffman generation does not establish the Kraft inequality — on the
repository's own `HuffmanEncoder` unit-test input (`freq = [1, 3, 2, 4]`,
`maxBits = 7`, fresh 4-symbol encoder; the test asserts codes
`(3,3), (1,2), (7,3), (0,1)`) the `bitCounts` walk dereferences the
never-initialised `levels[0]` (`while (levels[level - 1].needed > 0)` at
`level = 1`; the Go original keeps a bogus level 0 there) and the whole
`generate` call dies with a TypeError before any code is assigned. -/
theorem c6_generate_crashes_before_kraft :
    HuffmanEncoder.generate (HuffmanEncoder.new 4) [1, 3, 2, 4] 7 =
      .error .typeError := by
  decide

/-- C7: the match-finder hash is not reduced mod 2^32.  At `u = 9` (where
every intermediate double is an exact integer) the code returns
`floor((9 * 0x1e35a7bd) / 2^18) = 17400`, which exceeds `2^14 = 16384`,
whereas the claimed value `((9 * 0x1e35a7bd) mod 2^32) >> 18` is 1016. -/
theorem c7_hash_not_reduced_mod_2_32 :
    Flate.hash 9 = 17400 ∧
    ((9 * 0x1e35a7bd) % 4294967296) / 262144 = (1016 : Int) ∧
    ¬ Flate.hash 9 < 16384 := by
  decide

/-- C8 counterexample: `generate` does not fail fast for `maxBits = 16` on
every frequency vector.  With the two-symbol vector `[1, 1]` (on an encoder
whose code slots are populated) the `count <= 2` branch runs before the
`maxBits` check — which lives in `bitCounts`, reached only when
`count > 2` — and returns successfully with length-1 codes assigned. -/
theorem c8_counterexample_two_symbols :
    (HuffmanEncoder.generate ⟨#[some {}, some {}], Array.mkArray 17 0⟩
        [1, 1] 16).map (fun e => e.codes.toList) =
    .ok [some ⟨2, 1⟩, some ⟨1, 1⟩] := by
  decide

end Flate

namespace Flate

/-- The list-building loop of `generate` on an all-non-zero frequency list
never touches `codes` and advances `count` once per entry. -/
theorem buildList_all_nonzero (freq : List Int) (hall : ∀ f ∈ freq, f ≠ 0) :
    ∀ (i count : Int) (list : Array (Option LiteralNode))
      (codes : Array (Option Hcode)),
    ∃ l, buildList freq i list count codes =
      .ok (l, count + freq.length, codes) := by
  induction freq with
  | nil =>
    intro i count list codes
    exact ⟨list, by simp [buildList]⟩
  | cons f rest ih =>
    intro i count list codes
    have hf : f ≠ 0 := hall f (List.mem_cons_self f rest)
    obtain ⟨l, hl⟩ := ih (fun g hg => hall g (List.mem_cons_of_mem f hg))
      (i + 1) (count + 1) (jsObjSet list count ⟨i, f⟩) codes
    refine ⟨l, ?_⟩
    have harith : count + 1 + (rest.length : Int) =
        count + ((f :: rest).length : Int) := by
      simp only [List.length_cons]
      push_cast
      ring
    simp only [buildList, if_pos hf, hl, harith]

/-- `bitCounts` throws "flate: maxBits too large" as its very first step
whenever `maxBits ≥ 16`. -/
theorem bitCounts_maxBits_error (e : HuffmanEncoder)
    (list : Array (Option LiteralNode)) (maxBits : Int) (h : 16 ≤ maxBits) :
    e.bitCounts list maxBits = .error (.jsError .maxBitsTooLarge) := by
  unfold HuffmanEncoder.bitCounts
  rw [if_pos]
  simpa [MAX_BITS_LIMIT] using h

/-- C8 (amended): for every frequency vector with at least three symbols,
all of non-zero frequency, and every `maxBits ≥ 16`, `generate` reaches the
general path and fails fast with the internal error
"flate: maxBits too large" before assigning any code.  (The restriction to
three or more non-zero symbols is forced by `c8_counterexample_two_symbols`:
the `count <= 2` branch returns before the check.  The restriction to
vectors without zero entries is forced by the uninitialised-`codes` slip: on
a fresh encoder, a zero frequency makes `generate` die with a TypeError at
`this.codes[i].len = 0` instead of the identified internal error.) -/
theorem c8_amended_maxBits_error (e : HuffmanEncoder) (freq : List Int)
    (maxBits : Int) (hall : ∀ f ∈ freq, f ≠ 0) (hlen : 3 ≤ freq.length)
    (hmb : 16 ≤ maxBits) :
    e.generate freq maxBits = .error (.jsError .maxBitsTooLarge) := by
  obtain ⟨l, hl⟩ := buildList_all_nonzero freq hall 0 0 #[] e.codes
  have hcount : ¬ ((0 : Int) + (freq.length : Int) ≤ 2) := by omega
  unfold HuffmanEncoder.generate
  rw [hl]
  simp only [Except.bind, bind, if_neg hcount,
    bitCounts_maxBits_error e _ maxBits hmb]

/-- C8 (amended) witness at `freq = [1, 2, 3]`, `maxBits = 16` on a fresh
three-symbol encoder. -/
theorem c8_amended_maxBits_error_witness :
    (∀ f ∈ [(1 : Int), 2, 3], f ≠ 0) ∧ 3 ≤ [(1 : Int), 2, 3].length ∧
    (16 : Int) ≤ 16 ∧
    (HuffmanEncoder.new 3).generate [1, 2, 3] 16 =
      .error (.jsError .maxBitsTooLarge) :=
  ⟨by decide, by decide, by decide,
   c8_amended_maxBits_error (HuffmanEncoder.new 3) [1, 2, 3] 16
     (by decide) (by decide) (by decide)⟩

end Flate

namespace Flate

set_option maxRecDepth 100000

/-- C9: once the sticky `err` is set, `writeBits`, `writeCode`, `writeBytes`,
`write`, `writeBlock`, `writeBlockDynamic` and `writeBlockHuff` return the
state entirely unchanged (bit buffer, staging buffer and recorded sink
output included), and `flush` only zeroes `nbits`. -/
theorem c9_sticky_err_noop (w : HuffmanBitWriter) (e : JsErr)
    (hw : w.err = some e) (b nb : Int) (c : Hcode) (bs : List Nat)
    (tokens : List Token) (eof : Bool) (input : Option (List Nat))
    (raw : List Nat) :
    w.writeBits b nb = w ∧
    w.writeCode c = w ∧
    w.writeBytes bs = w ∧
    w.write bs = w ∧
    w.writeBlock tokens eof input = .ok w ∧
    w.writeBlockDynamic tokens eof input = .ok w ∧
    w.writeBlockHuff eof raw = .ok w ∧
    w.flush = { w with nbits := 0 } := by
  have hsome : w.err.isSome = true := by simp [hw]
  refine ⟨?_, ?_, ?_, ?_, ?_, ?_, ?_, ?_⟩
  · simp [HuffmanBitWriter.writeBits, hsome]
  · simp [HuffmanBitWriter.writeCode, hsome]
  · simp [HuffmanBitWriter.writeBytes, hsome]
  · simp [HuffmanBitWriter.write, hsome]
  · simp [HuffmanBitWriter.writeBlock, hsome, pure, Except.pure]
  · simp [HuffmanBitWriter.writeBlockDynamic, hsome, pure, Except.pure]
  · simp [HuffmanBitWriter.writeBlockHuff, hsome, pure, Except.pure]
  · simp [HuffmanBitWriter.flush, hsome]

/-- C9 witness: a concrete writer with the sticky error set, evaluated at
concrete arguments for every operation. -/
theorem c9_sticky_err_noop_witness :
    ({ newHuffmanBitWriter with err := some .typeError } :
        HuffmanBitWriter).err = some .typeError ∧
    ({ newHuffmanBitWriter with err := some .typeError } :
        HuffmanBitWriter).writeBits 5 3 =
      { newHuffmanBitWriter with err := some .typeError } ∧
    ({ newHuffmanBitWriter with err := some .typeError } :
        HuffmanBitWriter).writeBlock [⟨65⟩] true (some [65]) =
      .ok { newHuffmanBitWriter with err := some .typeError } ∧
    ({ newHuffmanBitWriter with err := some .typeError } :
        HuffmanBitWriter).flush =
      { ({ newHuffmanBitWriter with err := some .typeError } :
          HuffmanBitWriter) with nbits := 0 } := by
  refine ⟨rfl, ?_, ?_, ?_⟩
  · exact (c9_sticky_err_noop _ .typeError rfl 5 3 ⟨0, 0⟩ [] [⟨65⟩] true
      (some [65]) []).1
  · exact (c9_sticky_err_noop _ .typeError rfl 5 3 ⟨0, 0⟩ [] [⟨65⟩] true
      (some [65]) []).2.2.2.2.1
  · exact (c9_sticky_err_noop _ .typeError rfl 5 3 ⟨0, 0⟩ [] [⟨65⟩] true
      (some [65]) []).2.2.2.2.2.2.2

/-- C10: `histogram` returns with the caller's array unchanged (the
increments go into the local `h.slice(0, 256)` copy), and consequently the
literal-frequency table `writeBlockHuff` hands to `generate` is the one-hot
vector with `freq[256] = 1` and every other entry 0, for every input byte
sequence. -/
theorem c10_histogram_leaves_caller_untouched (b : List Nat) (h : Array Int)
    (w : HuffmanBitWriter) (input : List Nat)
    (hsize : w.literalFreq.size = 286) :
    (histogram b h).1 = h ∧
    (w.writeBlockHuffFreq input).toList =
      List.replicate 256 (0 : Int) ++ 1 :: List.replicate 29 0 := by
  constructor
  · rfl
  · have hmap : (w.literalFreq.map fun _ => (0 : Int)) =
        Array.mkArray 286 0 := by
      apply Array.ext
      · simpa using hsize
      · intro i hi hi'
        simp
    have hcaller : (histogram input
        (w.literalFreq.map fun _ => (0 : Int))).1 =
        (w.literalFreq.map fun _ => (0 : Int)) := rfl
    rw [HuffmanBitWriter.writeBlockHuffFreq, hcaller, hmap]
    decide

/-- C10 witness at concrete arguments. -/
theorem c10_histogram_leaves_caller_untouched_witness :
    (histogram [1, 2] #[4, 5, 6]).1 = #[4, 5, 6] ∧
    (newHuffmanBitWriter.writeBlockHuffFreq [65, 66]).toList =
      List.replicate 256 (0 : Int) ++ 1 :: List.replicate 29 0 :=
  ⟨(c10_histogram_leaves_caller_untouched [1, 2] #[4, 5, 6]
      newHuffmanBitWriter [65, 66] (by decide)).1,
   (c10_histogram_leaves_caller_untouched [1, 2] #[4, 5, 6]
      newHuffmanBitWriter [65, 66] (by decide)).2⟩

end Flate
